import Mathlib

/-!
# codetini: freshness check, install and launch of the code-server binary

A shallow embedding of `src/main.go`.  The Go program is effectful; here every
function is a state transformer over a `World` (the files on disk and the trace
of effects issued so far), reading the answers of the outside world (HTTP
responses, the XML decoder, injected system-call failures) from an `Env`.

A Go call can end in three ways, all of which the program uses:
a normal return, a `panic` (from `errCheck`), or `log.Fatalln` (which logs and
exits the process).  `Outcome` keeps them apart, and the `World` reached is
kept in all three cases so that the trace can be inspected after an abort.
-/

namespace Codetini

/-! ## Values -/

/-- A Go `error` value; `nil` is `none : Option GoError`. -/
structure GoError where
  msg : String
  deriving DecidableEq, Repr

/-- The error `os.Stat`, `os.Remove` and `os.Chmod` give for a missing path. -/
def ErrNotExist : GoError := ⟨"no such file or directory"⟩

/-- A `time.Time` without monotonic reading: an instant in nanoseconds since the
Unix epoch and whether its location is UTC. -/
structure Time where
  unixNano : Int
  utc : Bool
  deriving DecidableEq, Repr

/-- `t.UTC()`: same instant, location set to UTC. -/
def Time.UTC (t : Time) : Time := { t with utc := true }

/-- `t.After(u)`: the instant of `t` is strictly after the instant of `u`. -/
def Time.After (t u : Time) : Bool := decide (u.unixNano < t.unixNano)

abbrev Bytes := List (Fin 256)

/-- ListBucketResultContents is for each of the contents sections in a list of buckets. -/
structure ListBucketResultContents where
  Key : String
  ETag : String
  StorageClass : String
  Size : Int
  LastModified : Time
  deriving DecidableEq, Repr

/-- ListBucketResult represents the XML output from an S3 list of buckets. -/
structure ListBucketResult where
  Name : String
  Prefix : String
  Marker : String
  Delimiter : String
  MaxKeys : Int
  IsTruncated : Bool
  Contents : List ListBucketResultContents
  deriving DecidableEq, Repr

/-- What `os.FileInfo` exposes of a file. -/
structure FileInfo where
  name : String
  modTime : Time
  mode : Nat
  size : Nat
  deriving DecidableEq, Repr

/-- A regular file on disk. -/
structure File where
  content : Bytes
  mode : Nat
  modTime : Time
  deriving DecidableEq, Repr

/-- An HTTP response: the bytes its body delivers and the error (if any) with
which reading the body ends. -/
structure Response where
  body : Bytes
  readErr : Option GoError
  deriving DecidableEq, Repr

/-- Effects visible outside the process, in the order they are issued. -/
inductive Event where
  | log (line : String)
  | httpGet (url : String)
  | remove (path : String)
  | mkdirAll (path : String) (mode : Nat)
  | create (path : String)
  | write (path : String) (data : Bytes)
  | chmod (path : String) (mode : Nat)
  | listen (port : Nat)
  | closeListener (port : Nat)
  | start (path : String) (args : List String)
  | goWait (pid wpid : Nat)
  deriving DecidableEq, Repr

/-- The part of the machine the program changes. -/
structure World where
  files : String → Option File
  trace : List Event

/-- The answers of everything the program does not control. -/
structure Env where
  /-- Value of `os.Getenv("HOME")`. -/
  home : String
  /-- Result of `http.Get url`. -/
  http : String → Except GoError Response
  /-- What `xml.Unmarshal` leaves in the target and the error it reports. -/
  xmlUnmarshal : Bytes → ListBucketResult × Option GoError
  /-- Failure of `os.Stat` on an existing path. -/
  statErr : String → Option GoError
  /-- Failure of `os.Remove` on an existing path. -/
  removeErr : String → Option GoError
  mkdirErr : String → Option GoError
  createErr : String → Option GoError
  writeErr : String → Option GoError
  /-- Failure of `os.Chmod` on an existing path. -/
  chmodErr : String → Option GoError
  listenErr : Nat → Option GoError
  /-- Result of `cmd.Start()`: the pid of the child. -/
  startProc : String → List String → Except GoError Nat
  /-- Modification time given to a file created now. -/
  now : Time

/-! ## Configuration (the `var` block) -/

/-- URL to download latest code-server binary for linux. -/
def URL : String := "https://codesrv-ci.cdr.sh/"
/-- Bin is the name of the linux binary to download. -/
def Bin : String := "latest-linux"
/-- CodeBinDir is where we will store the code-server-linux binary. -/
def CodeBinDir (env : Env) : String := env.home ++ "/.local/share/code-server/bin"
/-- CodeBin is the name of the binary to run locally. -/
def CodeBin : String := "code-server-linux"
/-- CBIN is the full path to the code-server binary. -/
def CBIN (env : Env) : String := CodeBinDir env ++ "/" ++ CodeBin
/-- Port is the port we will run the code-server on. -/
def Port : Nat := 1337
/-- DefaultPerms for files/directories we create. -/
def DefaultPerms : Nat := 0o770

/-! ## Control flow -/

/-- How a call ends. -/
inductive Outcome (α : Type) where
  | ret (a : α)
  | panic (err : GoError)
  | fatal (line : String)
  deriving DecidableEq, Repr

/-- A Go computation over the world. -/
def M (α : Type) : Type := World → Outcome α × World

def M.pure {α : Type} (a : α) : M α := fun w => (Outcome.ret a, w)

def M.bind {α β : Type} (m : M α) (f : α → M β) : M β := fun w =>
  match m w with
  | (Outcome.ret a, w1) => f a w1
  | (Outcome.panic e, w1) => (Outcome.panic e, w1)
  | (Outcome.fatal s, w1) => (Outcome.fatal s, w1)

instance : Monad M where
  pure := M.pure
  bind := M.bind

/-- Append one effect to the trace. -/
def emit (ev : Event) : M Unit := fun w =>
  (Outcome.ret (), { w with trace := w.trace ++ [ev] })

/-- A `panic(err)`. -/
def goPanic {α : Type} (err : GoError) : M α := fun w => (Outcome.panic err, w)

/-- The panic of calling a method on a nil value. -/
def nilDeref {α : Type} : M α :=
  goPanic ⟨"invalid memory address or nil pointer dereference"⟩

/-- Logging via `log.Println` / `log.Printf`: one line (colours dropped). -/
def logPrintln (line : String) : M Unit := emit (Event.log line)

/-- Logging via `log.Fatalln`: log the line, then `os.Exit(1)`. -/
def logFatalln {α : Type} (line : String) : M α := fun w =>
  (Outcome.fatal line, { w with trace := w.trace ++ [Event.log line] })

/-! ## The outside world: files, network -/

/-- Trailing slashes removed from a name given in reverse; one character is
always kept. -/
def dropSlashes : List Char → List Char
  | c :: d :: cs => if c = '/' then dropSlashes (d :: cs) else c :: d :: cs
  | cs => cs

/-- Last path element, as `FileInfo.Name()` reports it: trailing slashes and
the leading directory name removed. -/
def baseName (path : String) : String :=
  match dropSlashes path.data.reverse with
  | [] => ""
  | c :: cs => String.mk (c :: cs.takeWhile (fun x => x ≠ '/')).reverse

/-- Model of `os.Stat`. -/
def osStat (env : Env) (path : String) : M (Option FileInfo × Option GoError) := fun w =>
  match w.files path with
  | none => (Outcome.ret (none, some ErrNotExist), w)
  | some f =>
    match env.statErr path with
    | some e => (Outcome.ret (none, some e), w)
    | none => (Outcome.ret (some ⟨baseName path, f.modTime, f.mode, f.content.length⟩, none), w)

/-- Model of `http.Get`: the request goes out, the environment answers. -/
def httpGet (env : Env) (url : String) : M (Option Response × Option GoError) := do
  emit (Event.httpGet url)
  match env.http url with
  | Except.ok r => pure (some r, none)
  | Except.error e => pure (none, some e)

/-- Model of `ioutil.ReadAll(r.Body)`. -/
def readAll (r : Response) : Bytes × Option GoError := (r.body, r.readErr)

/-! ## `errCheck` and `checkBin` -/

/-- Source: `errCheck`: log and panic on a non-nil error. -/
def errCheck (msg : String) (err : Option GoError) : M Unit :=
  match err with
  | some e => do
    logPrintln (msg ++ ": " ++ e.msg)
    goPanic e
  | none => pure ()

/-- The line `log.Fatalln` prints in `checkBin`. -/
def missingKeyLine : String :=
  "No " ++ Bin ++ " found in response from " ++ URL ++ " Exiting Now."

/-- The `for i := 0; i < len(buckets.Contents); i++` loop of `checkBin`, over
the entries not yet visited.  `some res` is a `return res` from inside the loop,
`none` means the loop ran to its end.  The `log.Fatalln` is the last statement
of the loop body, after (not inside) the `if` on the key. -/
def checkBinLoop (finfo : FileInfo) (mt : Time) :
    List ListBucketResultContents → M (Option (Option FileInfo × Bool × Option GoError))
  | [] => pure none
  | c :: rest => do
    let early : Option (Option FileInfo × Bool × Option GoError) ←
      (if c.Key = Bin then
        let ut := c.LastModified.UTC
        if mt.UTC.After ut = true then do
          logPrintln "Binary is healthy and up to date.  Release the hounds."
          pure (some (some finfo, true, none))
        else pure none
      else pure none)
    match early with
    | some res => pure (some res)
    | none => do
      let _ ← (logFatalln missingKeyLine : M Unit)
      checkBinLoop finfo mt rest

/-- Source: `checkBin`.  Returns `(finfo, isFresh, err)`. -/
def checkBin (env : Env) (cbin : String) : M (Option FileInfo × Bool × Option GoError) := do
  let (finfo, err) ← osStat env cbin
  match err with
  | none =>
    match finfo with
    | none => nilDeref
    | some fi =>
      let mt := fi.modTime.UTC
      let (r, err1) ← httpGet env URL
      errCheck "xml download: " err1
      match r with
      | none => nilDeref
      | some r =>
        let (bxml, _err2) := readAll r
        let (buckets, _err3) := env.xmlUnmarshal bxml
        match ← checkBinLoop fi mt buckets.Contents with
        | some res => pure res
        | none => pure (finfo, false, err)
  | some _ => pure (finfo, false, err)

/-! ## The outside world: file changes, sockets, processes -/

/-- Model of `os.Remove`. -/
def osRemove (env : Env) (path : String) : M (Option GoError) := fun w =>
  let w1 : World := { w with trace := w.trace ++ [Event.remove path] }
  match w.files path with
  | none => (Outcome.ret (some ErrNotExist), w1)
  | some _ =>
    match env.removeErr path with
    | some e => (Outcome.ret (some e), w1)
    | none =>
      (Outcome.ret none, { w1 with files := fun p => if p = path then none else w.files p })

/-- Model of `os.MkdirAll` (directories themselves are not tracked). -/
def osMkdirAll (env : Env) (path : String) (mode : Nat) : M (Option GoError) := do
  emit (Event.mkdirAll path mode)
  pure (env.mkdirErr path)

/-- Model of `os.Create`: on success the file is there, empty, keeping its mode
if it existed and created with 0666 otherwise; the handle is the path. -/
def osCreate (env : Env) (path : String) : M (Option String × Option GoError) := fun w =>
  let w1 : World := { w with trace := w.trace ++ [Event.create path] }
  match env.createErr path with
  | some e => (Outcome.ret (none, some e), w1)
  | none =>
    let mode := match w.files path with
      | some f => f.mode
      | none => 0o666
    (Outcome.ret (some path, none),
      { w1 with files := fun p => if p = path then some ⟨[], mode, env.now⟩ else w.files p })

/-- Model of `io.Copy(fout, rd.Body)`: the bytes the body delivers are appended
to the file; the error is that of the write, else that of the read. -/
def ioCopy (env : Env) (fout : String) (r : Response) : M (Nat × Option GoError) := fun w =>
  let w1 : World := { w with trace := w.trace ++ [Event.write fout r.body] }
  match env.writeErr fout with
  | some e => (Outcome.ret (0, some e), w1)
  | none =>
    match w.files fout with
    | none => (Outcome.ret (r.body.length, r.readErr), w1)
    | some f =>
      (Outcome.ret (r.body.length, r.readErr),
        { w1 with files := fun p =>
            if p = fout then some { f with content := f.content ++ r.body, modTime := env.now }
            else w.files p })

/-- Model of `os.Chmod`: sets the permission bits. -/
def osChmod (env : Env) (path : String) (mode : Nat) : M (Option GoError) := fun w =>
  let w1 : World := { w with trace := w.trace ++ [Event.chmod path mode] }
  match w.files path with
  | none => (Outcome.ret (some ErrNotExist), w1)
  | some f =>
    match env.chmodErr path with
    | some e => (Outcome.ret (some e), w1)
    | none =>
      (Outcome.ret none,
        { w1 with files := fun p =>
            if p = path then some { f with mode := mode &&& 0o777 } else w.files p })

/-- Model of `net.Listen("tcp", ":port")`; the listener is its port. -/
def netListen (env : Env) (port : Nat) : M (Option Nat × Option GoError) := do
  emit (Event.listen port)
  match env.listenErr port with
  | some e => pure (none, some e)
  | none => pure (some port, none)

/-- Model of `exec.Command(path, args...).Start()`; gives the child's pid. -/
def cmdStart (env : Env) (path : String) (args : List String) :
    M (Option Nat × Option GoError) := do
  emit (Event.start path args)
  match env.startProc path args with
  | Except.ok pid => pure (some pid, none)
  | Except.error e => pure (none, some e)

/-! ## `checkCode`, `launchCode`, `main` -/

/-- Source: `checkCode`. -/
def checkCode (env : Env) (cbin : String) : M Unit := do
  let (finfo, bin, err) ← checkBin env cbin
  errCheck "Binary Check: " err
  if bin = true then
    pure ()
  else do
    let name ← (match finfo with
      | some fi => pure fi.name
      | none => nilDeref : M String)
    logPrintln ("Local " ++ name ++ " binary is unhealthy or out of date. Updating Now.")
    let ubin := URL ++ Bin
    let err ← osRemove env cbin
    errCheck "file remove: " err
    let (rd, err) ← httpGet env ubin
    errCheck "http get:" err
    let mode := DefaultPerms % 2 ^ 32
    let _err ← osMkdirAll env (CodeBinDir env) mode
    let (fout, err) ← osCreate env cbin
    errCheck "create binary: " err
    let (_, err) ← (match fout, rd with
      | some fout, some rd => ioCopy env fout rd
      | _, _ => nilDeref : M (Nat × Option GoError))
    errCheck "write file: " err
    let err ← osChmod env cbin mode
    errCheck "chmod: " err

/-- The line `log.Fatalln` prints in `launchCode`. -/
def portTakenLine : String :=
  "Port: " ++ toString Port ++ " is taken. " ++ URL ++ " Exiting Now."

/-- Source: `doExtensions`. -/
def doExtensions : M (Option GoError) := pure none

/-- Source: `launchCode`. -/
def launchCode (env : Env) (cbin : String) : M Unit := do
  let (p, err) ← netListen env Port
  match err with
  | some _ => logFatalln portTakenLine
  | none => pure ()
  match p with
  | some p => emit (Event.closeListener p)
  | none => nilDeref
  logPrintln "Port is clear. Ready to launch."
  let err ← doExtensions
  errCheck "Check Extensions: " err
  let (cmd, err) ← cmdStart env cbin
    ["--host", "0.0.0.0", "--allow-http", "--no-auth", "--port=" ++ toString Port]
  errCheck "Exec Command: " err
  let pid ← (match cmd with
    | some pid => pure pid
    | none => nilDeref : M Nat)
  logPrintln ("Pid: " ++ toString pid)
  let (www, err) ← cmdStart env "www-browser"
    ["--url", "http://penguin.linux.test:" ++ toString Port]
  errCheck "Exec Command: " err
  let wpid ← (match www with
    | some pid => pure pid
    | none => nilDeref : M Nat)
  logPrintln ("Pid: " ++ toString wpid)
  emit (Event.goWait pid wpid)

/-- Source: `main`. -/
def main (env : Env) : M Unit := do
  checkCode env (CBIN env)
  launchCode env (CBIN env)

/-! ## Definitions used in the statements -/

/-- The error `xml.Unmarshal` gives for a body that is not XML. -/
def ErrSyntax : GoError := ⟨"XML syntax error on line 1: unexpected EOF"⟩

/-- The file information `os.Stat` gives for file `f` at `path`. -/
def infoOf (path : String) (f : File) : FileInfo :=
  ⟨baseName path, f.modTime, f.mode, f.content.length⟩

/-- The world after one more effect. -/
def World.add (w : World) (evs : List Event) : World :=
  { w with trace := w.trace ++ evs }

/-! ## Concrete inputs -/

/-- 2019-04-20T01:32:20Z. -/
def t2019Apr20 : Time := ⟨1555723940000000000, true⟩
/-- 2020-01-01T00:00:00Z. -/
def t2020Jan01 : Time := ⟨1577836800000000000, true⟩
/-- 2019-01-01T00:00:00Z. -/
def t2019Jan01 : Time := ⟨1546300800000000000, true⟩

/-- The entry of the listing quoted in the source. -/
def entryLinux : ListBucketResultContents :=
  ⟨"latest-linux", "d85a301acee0a0749660a802767c95c3", "", 94109479, t2019Apr20⟩

/-- An entry for another artifact. -/
def entryOther : ListBucketResultContents :=
  ⟨"latest-darwin", "0123456789abcdef0123456789abcdef", "", 90000000, t2019Apr20⟩

/-- An environment in which no system call fails, the listing decodes to
`listing` with decoder error `uerr`, and the artifact has bytes `artifact`. -/
def sampleEnv (listing : List ListBucketResultContents) (uerr : Option GoError)
    (artifact : Bytes) : Env where
  home := "/home/user"
  http := fun url =>
    if url = URL then Except.ok ⟨[], none⟩
    else if url = URL ++ Bin then Except.ok ⟨artifact, none⟩
    else Except.error ⟨"not found"⟩
  xmlUnmarshal := fun _ => (⟨"codesrv-ci.cdr.sh", "", "", "", 0, false, listing⟩, uerr)
  statErr := fun _ => none
  removeErr := fun _ => none
  mkdirErr := fun _ => none
  createErr := fun _ => none
  writeErr := fun _ => none
  chmodErr := fun _ => none
  listenErr := fun _ => none
  startProc := fun path _ => if path = "www-browser" then Except.ok 4002 else Except.ok 4001
  now := ⟨1600000000000000000, false⟩

/-- The path `CBIN` for `$HOME = /home/user`. -/
def samplePath : String := "/home/user/.local/share/code-server/bin/code-server-linux"

/-- A disk without any file. -/
def emptyWorld : World := ⟨fun _ => none, []⟩

/-- A disk holding one binary, last modified at `mt`. -/
def worldWith (mt : Time) : World :=
  ⟨fun p => if p = samplePath then some ⟨[7, 7], 0o770, mt⟩ else none, []⟩

/-! ## Trace predicates -/

/-- Whether the effect starts a child process. -/
def Event.isSpawn : Event → Bool
  | Event.start _ _ => true
  | _ => false

/-- The computation only appends to the trace, and nothing it appends starts a
child process. -/
def NoSpawn {α : Type} (m : M α) : Prop :=
  ∀ w, ∃ evs, (m w).2.trace = w.trace ++ evs ∧ ∀ ev ∈ evs, Event.isSpawn ev = false

/-- The error of a body that ends before its announced length. -/
def ErrUnexpectedEOF : GoError := ⟨"unexpected EOF"⟩

/-- The sample environment in which reading the body of the listing ends in an
error before any byte, and the decoder then reports an error on the empty
input. -/
def readErrEnv : Env :=
  { sampleEnv [] (some ErrSyntax) [1, 2, 3] with
    http := fun url =>
      if url = URL then Except.ok ⟨[], some ErrUnexpectedEOF⟩
      else if url = URL ++ Bin then Except.ok ⟨[1, 2, 3], none⟩
      else Except.error ⟨"not found"⟩ }

/-- The error of binding a port that is in use. -/
def ErrAddrInUse : GoError := ⟨"listen tcp :1337: bind: address already in use"⟩

/-- The sample environment with port 1337 taken. -/
def busyEnv : Env :=
  { sampleEnv [entryLinux] none [] with listenErr := fun _ => some ErrAddrInUse }

/-! ## Basic facts about the control flow -/

theorem bind_apply {α β : Type} (m : M α) (f : α → M β) (w : World) :
    (m >>= f) w = M.bind m f w := rfl

theorem pure_apply {α : Type} (a : α) (w : World) :
    (pure a : M α) w = (Outcome.ret a, w) := rfl

theorem checkBin_absent (env : Env) (cbin : String) (w : World)
    (h : w.files cbin = none) :
    checkBin env cbin w = (Outcome.ret (none, false, some ErrNotExist), w) := by
  simp [checkBin, bind_apply, M.bind, osStat, h, pure_apply]

theorem checkBin_nil (env : Env) (cbin : String) (w : World) (f : File) (r : Response)
    (hf : w.files cbin = some f) (hs : env.statErr cbin = none)
    (hg : env.http URL = Except.ok r)
    (hc : (env.xmlUnmarshal r.body).1.Contents = []) :
    checkBin env cbin w
      = (Outcome.ret (some (infoOf cbin f), false, none), w.add [Event.httpGet URL]) := by
  simp [checkBin, bind_apply, M.bind, osStat, hf, hs, hg, hc, pure_apply, httpGet, emit,
    errCheck, readAll, checkBinLoop, infoOf, World.add]

theorem checkBin_fresh (env : Env) (cbin : String) (w : World) (f : File) (r : Response)
    (c : ListBucketResultContents) (rest : List ListBucketResultContents)
    (hf : w.files cbin = some f) (hs : env.statErr cbin = none)
    (hg : env.http URL = Except.ok r)
    (hc : (env.xmlUnmarshal r.body).1.Contents = c :: rest)
    (hk : c.Key = Bin) (ht : c.LastModified.unixNano < f.modTime.unixNano) :
    checkBin env cbin w
      = (Outcome.ret (some (infoOf cbin f), true, none),
          w.add [Event.httpGet URL,
            Event.log "Binary is healthy and up to date.  Release the hounds."]) := by
  simp [checkBin, bind_apply, M.bind, osStat, hf, hs, hg, hc, pure_apply, httpGet, emit,
    errCheck, readAll, checkBinLoop, infoOf, World.add, hk, ht, Time.After, Time.UTC,
    logPrintln]

theorem checkBin_fatal (env : Env) (cbin : String) (w : World) (f : File) (r : Response)
    (c : ListBucketResultContents) (rest : List ListBucketResultContents)
    (hf : w.files cbin = some f) (hs : env.statErr cbin = none)
    (hg : env.http URL = Except.ok r)
    (hc : (env.xmlUnmarshal r.body).1.Contents = c :: rest)
    (hk : ¬ (c.Key = Bin ∧ c.LastModified.unixNano < f.modTime.unixNano)) :
    checkBin env cbin w
      = (Outcome.fatal missingKeyLine,
          w.add [Event.httpGet URL, Event.log missingKeyLine]) := by
  by_cases h1 : c.Key = Bin
  · have h2 : ¬ c.LastModified.unixNano < f.modTime.unixNano := fun h => hk ⟨h1, h⟩
    simp [checkBin, bind_apply, M.bind, osStat, hf, hs, hg, hc, pure_apply, httpGet, emit,
      errCheck, readAll, checkBinLoop, World.add, h1, h2, Time.After, Time.UTC,
      logFatalln]
  · simp [checkBin, bind_apply, M.bind, osStat, hf, hs, hg, hc, pure_apply, httpGet, emit,
      errCheck, readAll, checkBinLoop, World.add, h1, logFatalln]

theorem checkBin_getFails (env : Env) (cbin : String) (w : World) (f : File) (e : GoError)
    (hf : w.files cbin = some f) (hs : env.statErr cbin = none)
    (hg : env.http URL = Except.error e) :
    checkBin env cbin w
      = (Outcome.panic e,
          w.add [Event.httpGet URL, Event.log ("xml download: " ++ ": " ++ e.msg)]) := by
  simp [checkBin, bind_apply, M.bind, osStat, hf, hs, hg, pure_apply, httpGet, emit,
    errCheck, World.add, logPrintln, goPanic]

theorem checkBin_statFails (env : Env) (cbin : String) (w : World) (f : File) (e : GoError)
    (hf : w.files cbin = some f) (hs : env.statErr cbin = some e) :
    checkBin env cbin w = (Outcome.ret (none, false, some e), w) := by
  simp [checkBin, bind_apply, M.bind, osStat, hf, hs, pure_apply]

/-! ## `checkCode` in terms of the result of `checkBin` -/

theorem checkCode_of_fatal (env : Env) (cbin : String) (w w1 : World) (line : String)
    (h : checkBin env cbin w = (Outcome.fatal line, w1)) :
    checkCode env cbin w = (Outcome.fatal line, w1) := by
  simp [checkCode, bind_apply, M.bind, h]

theorem checkCode_of_panic (env : Env) (cbin : String) (w w1 : World) (e : GoError)
    (h : checkBin env cbin w = (Outcome.panic e, w1)) :
    checkCode env cbin w = (Outcome.panic e, w1) := by
  simp [checkCode, bind_apply, M.bind, h]

theorem checkCode_of_err (env : Env) (cbin : String) (w w1 : World)
    (fi : Option FileInfo) (b : Bool) (e : GoError)
    (h : checkBin env cbin w = (Outcome.ret (fi, b, some e), w1)) :
    checkCode env cbin w
      = (Outcome.panic e, w1.add [Event.log ("Binary Check: " ++ ": " ++ e.msg)]) := by
  simp [checkCode, bind_apply, M.bind, h, errCheck, logPrintln, emit, goPanic, World.add]

theorem checkCode_of_fresh (env : Env) (cbin : String) (w w1 : World)
    (fi : Option FileInfo)
    (h : checkBin env cbin w = (Outcome.ret (fi, true, none), w1)) :
    checkCode env cbin w = (Outcome.ret (), w1) := by
  simp [checkCode, bind_apply, M.bind, h, errCheck, pure_apply]

/-! ## The claims about `checkBin` -/

/-- C1 (defect in the code): the local file is strictly newer than the only
`latest-linux` entry of the listing, but that entry is second in `Contents`.
`checkBin` does not report fresh: it stops at the first entry with the fatal
missing-key line, and so does `checkCode`. -/
theorem C1_match_after_first_entry_is_fatal :
    ((worldWith t2020Jan01).files samplePath = some ⟨[7, 7], 0o770, t2020Jan01⟩
      ∧ entryLinux.Key = Bin
      ∧ entryLinux.LastModified.UTC.unixNano < t2020Jan01.UTC.unixNano)
    ∧ checkBin (sampleEnv [entryOther, entryLinux] none []) samplePath (worldWith t2020Jan01)
        = (Outcome.fatal missingKeyLine,
            (worldWith t2020Jan01).add [Event.httpGet URL, Event.log missingKeyLine])
    ∧ checkCode (sampleEnv [entryOther, entryLinux] none []) samplePath (worldWith t2020Jan01)
        = (Outcome.fatal missingKeyLine,
            (worldWith t2020Jan01).add [Event.httpGet URL, Event.log missingKeyLine]) := by
  have h := checkBin_fatal (sampleEnv [entryOther, entryLinux] none []) samplePath
    (worldWith t2020Jan01) ⟨[7, 7], 0o770, t2020Jan01⟩ ⟨[], none⟩ entryOther [entryLinux]
    (by decide) rfl rfl rfl (by decide)
  exact ⟨⟨by decide, by decide, by decide⟩, h, checkCode_of_fatal _ _ _ _ _ h⟩

/-- C2 (defect in the code): the listing has the single entry `latest-linux` of
2019-04-20 and the local file is of 2019-01-01, so it is stale.  `checkBin`
does not return `isFresh = false`: it ends with the fatal missing-key line, and
`checkCode` ends there too, before any removal or download. -/
theorem C2_stale_binary_is_fatal :
    ((worldWith t2019Jan01).files samplePath = some ⟨[7, 7], 0o770, t2019Jan01⟩
      ∧ entryLinux.Key = Bin
      ∧ t2019Jan01.UTC.unixNano ≤ entryLinux.LastModified.UTC.unixNano)
    ∧ checkBin (sampleEnv [entryLinux] none []) samplePath (worldWith t2019Jan01)
        = (Outcome.fatal missingKeyLine,
            (worldWith t2019Jan01).add [Event.httpGet URL, Event.log missingKeyLine])
    ∧ checkCode (sampleEnv [entryLinux] none []) samplePath (worldWith t2019Jan01)
        = (Outcome.fatal missingKeyLine,
            (worldWith t2019Jan01).add [Event.httpGet URL, Event.log missingKeyLine]) := by
  have h := checkBin_fatal (sampleEnv [entryLinux] none []) samplePath
    (worldWith t2019Jan01) ⟨[7, 7], 0o770, t2019Jan01⟩ ⟨[], none⟩ entryLinux []
    (by decide) rfl rfl rfl (by decide)
  exact ⟨⟨by decide, by decide, by decide⟩, h, checkCode_of_fatal _ _ _ _ _ h⟩

/-- C3 (as stated, refuted): with no file on disk `checkBin` does not return a
nil error. -/
theorem C3_absent_file_error_is_not_nil :
    emptyWorld.files samplePath = none
    ∧ ¬ ∃ fi, (checkBin (sampleEnv [entryLinux] none []) samplePath emptyWorld).1
          = Outcome.ret (fi, false, none) := by
  refine ⟨rfl, ?_⟩
  rw [checkBin_absent _ _ _ rfl]
  rintro ⟨fi, h⟩
  cases h

/-- C3 (amended): whenever no file exists at `cbin`, `checkBin` returns a nil
`FileInfo`, `isFresh = false` and the not-exist error of `os.Stat`, and leaves
the world as it was: nothing is added to the trace, in particular no HTTP
request. -/
theorem C3_absent_file_returns_stat_error (env : Env) (cbin : String) (w : World)
    (h : w.files cbin = none) :
    (checkBin env cbin w).1 = Outcome.ret (none, false, some ErrNotExist)
    ∧ (checkBin env cbin w).2 = w
    ∧ ∀ url, Event.httpGet url ∈ (checkBin env cbin w).2.trace → Event.httpGet url ∈ w.trace := by
  rw [checkBin_absent env cbin w h]
  exact ⟨rfl, rfl, fun _ hu => hu⟩

/-- Witness for C3 (amended): an empty disk. -/
theorem C3_absent_file_returns_stat_error_witness :
    emptyWorld.files samplePath = none
    ∧ (checkBin (sampleEnv [entryLinux] none []) samplePath emptyWorld).1
        = Outcome.ret (none, false, some ErrNotExist)
    ∧ (checkBin (sampleEnv [entryLinux] none []) samplePath emptyWorld).2.trace = [] := by
  have h := C3_absent_file_returns_stat_error (sampleEnv [entryLinux] none []) samplePath
    emptyWorld rfl
  exact ⟨rfl, h.1, by rw [h.2.1]; rfl⟩

/-- C4 (defect in the code): with no file on disk `checkCode` does not go on to
install.  `checkBin` hands back the not-exist error and `errCheck` panics on
it; the trace holds the log line of `errCheck` only: no request, no file
created. -/
theorem C4_absent_file_panics :
    emptyWorld.files samplePath = none
    ∧ checkCode (sampleEnv [entryLinux] none [1, 2, 3]) samplePath emptyWorld
        = (Outcome.panic ErrNotExist,
            emptyWorld.add [Event.log "Binary Check: : no such file or directory"]) :=
  ⟨rfl, checkCode_of_err _ _ _ _ _ _ _ (checkBin_absent _ _ _ rfl)⟩

/-- C5 (as stated, refuted): a listing without the key does not always end in
the fatal termination.  With no local file the listing is not even fetched and
`checkBin` returns the `os.Stat` error; with a local file and a listing of zero
entries `checkBin` returns `isFresh = false` with a nil error, and `checkCode`
then installs as for a stale binary. -/
theorem C5_missing_key_not_always_fatal :
    ((∀ c ∈ [entryOther], c.Key ≠ Bin)
      ∧ checkBin (sampleEnv [entryOther] none []) samplePath emptyWorld
          = (Outcome.ret (none, false, some ErrNotExist), emptyWorld))
    ∧ ((∀ c ∈ ([] : List ListBucketResultContents), c.Key ≠ Bin)
      ∧ checkBin (sampleEnv [] none [1, 2, 3]) samplePath (worldWith t2020Jan01)
          = (Outcome.ret (some (infoOf samplePath ⟨[7, 7], 0o770, t2020Jan01⟩), false, none),
              (worldWith t2020Jan01).add [Event.httpGet URL])
      ∧ (checkCode (sampleEnv [] none [1, 2, 3]) samplePath (worldWith t2020Jan01)).1
          = Outcome.ret ()
      ∧ Event.httpGet (URL ++ Bin)
          ∈ (checkCode (sampleEnv [] none [1, 2, 3]) samplePath (worldWith t2020Jan01)).2.trace) := by
  refine ⟨⟨by decide, checkBin_absent _ _ _ rfl⟩, by simp, ?_, by decide, by decide⟩
  exact checkBin_nil (sampleEnv [] none [1, 2, 3]) samplePath (worldWith t2020Jan01)
    ⟨[7, 7], 0o770, t2020Jan01⟩ ⟨[], none⟩ (by decide) rfl rfl rfl

/-- C5 (amended): for every existing local file and every successfully fetched
listing with at least one entry, none of which has `Key` equal to `Bin`,
`checkBin` ends in the fatal missing-key termination, and so does `checkCode`,
with nothing but the listing request and the fatal log line in the trace. -/
theorem C5_missing_key_fatal (env : Env) (cbin : String) (w : World) (f : File)
    (r : Response) (c : ListBucketResultContents) (rest : List ListBucketResultContents)
    (hf : w.files cbin = some f) (hs : env.statErr cbin = none)
    (hg : env.http URL = Except.ok r)
    (hc : (env.xmlUnmarshal r.body).1.Contents = c :: rest)
    (hk : ∀ x ∈ c :: rest, x.Key ≠ Bin) :
    checkBin env cbin w
        = (Outcome.fatal missingKeyLine, w.add [Event.httpGet URL, Event.log missingKeyLine])
    ∧ checkCode env cbin w
        = (Outcome.fatal missingKeyLine, w.add [Event.httpGet URL, Event.log missingKeyLine]) := by
  have h := checkBin_fatal env cbin w f r c rest hf hs hg hc
    (fun hh => hk c (List.mem_cons_self c rest) hh.1)
  exact ⟨h, checkCode_of_fatal _ _ _ _ _ h⟩

/-- Witness for C5 (amended): a local file and a listing of two entries for another artifact. -/
theorem C5_missing_key_fatal_witness :
    (worldWith t2020Jan01).files samplePath = some ⟨[7, 7], 0o770, t2020Jan01⟩
    ∧ (∀ x ∈ [entryOther, entryOther], x.Key ≠ Bin)
    ∧ checkBin (sampleEnv [entryOther, entryOther] none []) samplePath (worldWith t2020Jan01)
        = (Outcome.fatal missingKeyLine,
            (worldWith t2020Jan01).add [Event.httpGet URL, Event.log missingKeyLine])
    ∧ checkCode (sampleEnv [entryOther, entryOther] none []) samplePath (worldWith t2020Jan01)
        = (Outcome.fatal missingKeyLine,
            (worldWith t2020Jan01).add [Event.httpGet URL, Event.log missingKeyLine]) :=
  ⟨by decide, by decide,
    C5_missing_key_fatal (sampleEnv [entryOther, entryOther] none []) samplePath
      (worldWith t2020Jan01) ⟨[7, 7], 0o770, t2020Jan01⟩ ⟨[], none⟩ entryOther [entryOther]
      (by decide) rfl rfl rfl (by decide)⟩

/-- C6 (defect in the code): read and parse errors of the listing are dropped,
not surfaced.  (1) The body is not XML: `xml.Unmarshal` reports an error and
decodes no entry; `checkBin` returns `isFresh = false` with a nil error and
`checkCode` removes the binary and downloads it again.  (2) The same when
reading the body ends in an error.  (3) The decoder reports an error after the
entry `latest-linux`: `checkBin` returns `isFresh = true` with a nil error. -/
theorem C6_decode_errors_not_surfaced :
    (((sampleEnv [] (some ErrSyntax) [1, 2, 3]).xmlUnmarshal []).2 = some ErrSyntax
      ∧ checkBin (sampleEnv [] (some ErrSyntax) [1, 2, 3]) samplePath (worldWith t2020Jan01)
          = (Outcome.ret (some (infoOf samplePath ⟨[7, 7], 0o770, t2020Jan01⟩), false, none),
              (worldWith t2020Jan01).add [Event.httpGet URL])
      ∧ (checkCode (sampleEnv [] (some ErrSyntax) [1, 2, 3]) samplePath
            (worldWith t2020Jan01)).1 = Outcome.ret ()
      ∧ Event.remove samplePath
          ∈ (checkCode (sampleEnv [] (some ErrSyntax) [1, 2, 3]) samplePath
              (worldWith t2020Jan01)).2.trace
      ∧ Event.httpGet (URL ++ Bin)
          ∈ (checkCode (sampleEnv [] (some ErrSyntax) [1, 2, 3]) samplePath
              (worldWith t2020Jan01)).2.trace)
    ∧ (readErrEnv.http URL = Except.ok ⟨[], some ErrUnexpectedEOF⟩
      ∧ checkBin readErrEnv samplePath (worldWith t2020Jan01)
          = (Outcome.ret (some (infoOf samplePath ⟨[7, 7], 0o770, t2020Jan01⟩), false, none),
              (worldWith t2020Jan01).add [Event.httpGet URL])
      ∧ (checkCode readErrEnv samplePath (worldWith t2020Jan01)).1 = Outcome.ret ()
      ∧ Event.remove samplePath
          ∈ (checkCode readErrEnv samplePath (worldWith t2020Jan01)).2.trace)
    ∧ (((sampleEnv [entryLinux] (some ErrSyntax) []).xmlUnmarshal []).2 = some ErrSyntax
      ∧ checkBin (sampleEnv [entryLinux] (some ErrSyntax) []) samplePath (worldWith t2020Jan01)
          = (Outcome.ret (some (infoOf samplePath ⟨[7, 7], 0o770, t2020Jan01⟩), true, none),
              (worldWith t2020Jan01).add [Event.httpGet URL,
                Event.log "Binary is healthy and up to date.  Release the hounds."])) := by
  refine ⟨⟨rfl, ?_, by decide, by decide, by decide⟩, ⟨rfl, ?_, by decide, by decide⟩, rfl, ?_⟩
  · exact checkBin_nil (sampleEnv [] (some ErrSyntax) [1, 2, 3]) samplePath
      (worldWith t2020Jan01) ⟨[7, 7], 0o770, t2020Jan01⟩ ⟨[], none⟩ (by decide) rfl rfl rfl
  · exact checkBin_nil readErrEnv samplePath (worldWith t2020Jan01)
      ⟨[7, 7], 0o770, t2020Jan01⟩ ⟨[], some ErrUnexpectedEOF⟩ (by decide) rfl rfl rfl
  · exact checkBin_fresh (sampleEnv [entryLinux] (some ErrSyntax) []) samplePath
      (worldWith t2020Jan01) ⟨[7, 7], 0o770, t2020Jan01⟩ ⟨[], none⟩ entryLinux []
      (by decide) rfl rfl rfl (by decide) (by decide)

/-- C9: freshness is strict.  Whenever `checkBin` returns `isFresh = true`, the
local file exists, the listing was fetched, and the first entry of the listing
whose `Key` equals `Bin` has a `LastModified` time (UTC) strictly before the
modification time (UTC) of the local file; so the two times are never equal. -/
theorem C9_fresh_is_strict (env : Env) (cbin : String) (w : World)
    (fi : Option FileInfo) (e : Option GoError)
    (h : (checkBin env cbin w).1 = Outcome.ret (fi, true, e)) :
    ∃ f r c, w.files cbin = some f ∧ env.http URL = Except.ok r
      ∧ c ∈ (env.xmlUnmarshal r.body).1.Contents
      ∧ (env.xmlUnmarshal r.body).1.Contents.find? (fun x => decide (x.Key = Bin)) = some c
      ∧ c.Key = Bin
      ∧ c.LastModified.UTC.unixNano < f.modTime.UTC.unixNano
      ∧ f.modTime.UTC.unixNano ≠ c.LastModified.UTC.unixNano := by
  rcases hf : w.files cbin with _ | f
  · rw [checkBin_absent env cbin w hf] at h
    simp at h
  rcases hs : env.statErr cbin with _ | e1
  swap
  · rw [checkBin_statFails env cbin w f e1 hf hs] at h
    simp at h
  rcases hg : env.http URL with e2 | r
  · rw [checkBin_getFails env cbin w f e2 hf hs hg] at h
    simp at h
  rcases hc : (env.xmlUnmarshal r.body).1.Contents with _ | ⟨c, rest⟩
  · rw [checkBin_nil env cbin w f r hf hs hg hc] at h
    simp at h
  by_cases hk : c.Key = Bin ∧ c.LastModified.unixNano < f.modTime.unixNano
  · refine ⟨f, r, c, rfl, rfl, ?_, ?_, hk.1, hk.2, ne_of_gt hk.2⟩
    · rw [hc]; exact List.mem_cons_self c rest
    · rw [hc]; simp [List.find?, hk.1]
  · rw [checkBin_fatal env cbin w f r c rest hf hs hg hc hk] at h
    simp at h

/-- Witness for C9: the listing of the source and a local file of 2020-01-01. -/
theorem C9_fresh_is_strict_witness :
    (checkBin (sampleEnv [entryLinux] none []) samplePath (worldWith t2020Jan01)).1
        = Outcome.ret (some (infoOf samplePath ⟨[7, 7], 0o770, t2020Jan01⟩), true, none)
    ∧ ∃ f r c, (worldWith t2020Jan01).files samplePath = some f
      ∧ (sampleEnv [entryLinux] none []).http URL = Except.ok r
      ∧ c ∈ ((sampleEnv [entryLinux] none []).xmlUnmarshal r.body).1.Contents
      ∧ ((sampleEnv [entryLinux] none []).xmlUnmarshal r.body).1.Contents.find?
          (fun x => decide (x.Key = Bin)) = some c
      ∧ c.Key = Bin
      ∧ c.LastModified.UTC.unixNano < f.modTime.UTC.unixNano
      ∧ f.modTime.UTC.unixNano ≠ c.LastModified.UTC.unixNano :=
  ⟨by decide,
    C9_fresh_is_strict (sampleEnv [entryLinux] none []) samplePath (worldWith t2020Jan01)
      (some (infoOf samplePath ⟨[7, 7], 0o770, t2020Jan01⟩)) none (by decide)⟩

/-- C10: for every existing local file and every fetched listing with at least
two entries whose first entry has a `Key` different from `Bin`, `checkBin` ends
in the fatal missing-key termination at that first entry, whatever the later
entries are. -/
theorem C10_first_entry_other_key_is_fatal (env : Env) (cbin : String) (w : World)
    (f : File) (r : Response) (c0 c1 : ListBucketResultContents)
    (rest : List ListBucketResultContents)
    (hf : w.files cbin = some f) (hs : env.statErr cbin = none)
    (hg : env.http URL = Except.ok r)
    (hc : (env.xmlUnmarshal r.body).1.Contents = c0 :: c1 :: rest)
    (hk : c0.Key ≠ Bin) :
    checkBin env cbin w
      = (Outcome.fatal missingKeyLine, w.add [Event.httpGet URL, Event.log missingKeyLine]) :=
  checkBin_fatal env cbin w f r c0 (c1 :: rest) hf hs hg hc (fun hh => hk hh.1)

/-- Witness for C10: the matching, older entry comes second of three. -/
theorem C10_first_entry_other_key_is_fatal_witness :
    (entryOther.Key ≠ Bin ∧ entryLinux.Key = Bin
      ∧ entryLinux.LastModified.UTC.unixNano < t2020Jan01.UTC.unixNano)
    ∧ checkBin (sampleEnv [entryOther, entryLinux, entryOther] none []) samplePath
        (worldWith t2020Jan01)
      = (Outcome.fatal missingKeyLine,
          (worldWith t2020Jan01).add [Event.httpGet URL, Event.log missingKeyLine]) :=
  ⟨by decide,
    C10_first_entry_other_key_is_fatal (sampleEnv [entryOther, entryLinux, entryOther] none [])
      samplePath (worldWith t2020Jan01) ⟨[7, 7], 0o770, t2020Jan01⟩ ⟨[], none⟩
      entryOther entryLinux [entryOther] (by decide) rfl rfl rfl (by decide)⟩

/-! ## The install path of `checkCode` -/

/-- C7: whenever `checkBin` reports the binary as not fresh (so `checkCode`
takes the install path) and `checkCode` returns normally (every checked step:
remove, GET, create, copy, chmod, succeeded), the GET of `URL + Bin` answered
with a response whose body was read to its end, and the file at `cbin`
afterwards has exactly the bytes of that body and permission bits
`DefaultPerms` (0770), which include the owner-execute bit 0100. -/
theorem C7_install_roundtrip (env : Env) (cbin : String) (w w1 : World)
    (fi : Option FileInfo) (e : Option GoError)
    (hb : checkBin env cbin w = (Outcome.ret (fi, false, e), w1))
    (hr : (checkCode env cbin w).1 = Outcome.ret ()) :
    ∃ r f, env.http (URL ++ Bin) = Except.ok r ∧ r.readErr = none
      ∧ (checkCode env cbin w).2.files cbin = some f
      ∧ f.content = r.body
      ∧ f.mode = DefaultPerms
      ∧ DefaultPerms = 0o770
      ∧ DefaultPerms &&& 0o100 ≠ 0 := by
  have hperm : DefaultPerms % 4294967296 &&& 511 = DefaultPerms := by decide
  rcases e with _ | e
  swap
  · rw [checkCode_of_err env cbin w w1 fi false e hb] at hr
    simp at hr
  rcases fi with _ | fi
  · simp [checkCode, bind_apply, M.bind, hb, errCheck, pure_apply, nilDeref, goPanic] at hr
  rcases h1 : w1.files cbin with _ | f0
  · simp [checkCode, bind_apply, M.bind, hb, errCheck, pure_apply, logPrintln, emit,
      osRemove, h1, goPanic] at hr
  rcases h2 : env.removeErr cbin with _ | e2
  swap
  · simp [checkCode, bind_apply, M.bind, hb, errCheck, pure_apply, logPrintln, emit,
      osRemove, h1, h2, goPanic] at hr
  rcases h3 : env.http (URL ++ Bin) with e3 | r
  · simp [checkCode, bind_apply, M.bind, hb, errCheck, pure_apply, logPrintln, emit,
      osRemove, h1, h2, httpGet, h3, goPanic] at hr
  rcases h4 : env.createErr cbin with _ | e4
  swap
  · simp [checkCode, bind_apply, M.bind, hb, errCheck, pure_apply, logPrintln, emit,
      osRemove, h1, h2, httpGet, h3, osMkdirAll, osCreate, h4, goPanic] at hr
  rcases h5 : env.writeErr cbin with _ | e5
  swap
  · simp [checkCode, bind_apply, M.bind, hb, errCheck, pure_apply, logPrintln, emit,
      osRemove, h1, h2, httpGet, h3, osMkdirAll, osCreate, h4, ioCopy, h5, goPanic] at hr
  rcases h6 : r.readErr with _ | e6
  swap
  · simp [checkCode, bind_apply, M.bind, hb, errCheck, pure_apply, logPrintln, emit,
      osRemove, h1, h2, httpGet, h3, osMkdirAll, osCreate, h4, ioCopy, h5, h6, goPanic] at hr
  rcases h7 : env.chmodErr cbin with _ | e7
  swap
  · simp [checkCode, bind_apply, M.bind, hb, errCheck, pure_apply, logPrintln, emit,
      osRemove, h1, h2, httpGet, h3, osMkdirAll, osCreate, h4, ioCopy, h5, h6, osChmod, h7,
      goPanic] at hr
  refine ⟨r, ⟨r.body, DefaultPerms, env.now⟩, rfl, h6, ?_, rfl, rfl, rfl, by decide⟩
  simp [checkCode, bind_apply, M.bind, hb, errCheck, pure_apply, logPrintln, emit,
    osRemove, h1, h2, httpGet, h3, osMkdirAll, osCreate, h4, ioCopy, h5, h6, osChmod, h7,
    hperm]

/-- Witness for C7: a local file, a listing without entries, an artifact of three bytes. -/
theorem C7_install_roundtrip_witness :
    checkBin (sampleEnv [] none [1, 2, 3]) samplePath (worldWith t2019Jan01)
        = (Outcome.ret (some (infoOf samplePath ⟨[7, 7], 0o770, t2019Jan01⟩), false, none),
            (worldWith t2019Jan01).add [Event.httpGet URL])
    ∧ (checkCode (sampleEnv [] none [1, 2, 3]) samplePath (worldWith t2019Jan01)).1
        = Outcome.ret ()
    ∧ (checkCode (sampleEnv [] none [1, 2, 3]) samplePath (worldWith t2019Jan01)).2.files
          samplePath = some ⟨[1, 2, 3], 0o770, (sampleEnv [] none [1, 2, 3]).now⟩
    ∧ ∃ r f, (sampleEnv [] none [1, 2, 3]).http (URL ++ Bin) = Except.ok r ∧ r.readErr = none
      ∧ (checkCode (sampleEnv [] none [1, 2, 3]) samplePath (worldWith t2019Jan01)).2.files
          samplePath = some f
      ∧ f.content = r.body
      ∧ f.mode = DefaultPerms
      ∧ DefaultPerms = 0o770
      ∧ DefaultPerms &&& 0o100 ≠ 0 :=
  have hb := checkBin_nil (sampleEnv [] none [1, 2, 3]) samplePath (worldWith t2019Jan01)
    ⟨[7, 7], 0o770, t2019Jan01⟩ ⟨[], none⟩ (by decide) rfl rfl rfl
  ⟨hb, by decide, by decide,
    C7_install_roundtrip (sampleEnv [] none [1, 2, 3]) samplePath (worldWith t2019Jan01) _ _ _
      hb (by decide)⟩

/-! ## No child process before the port probe -/

theorem noSpawn_pure {α : Type} (a : α) : NoSpawn (pure a : M α) :=
  fun w => ⟨[], by simp [pure_apply], by simp⟩

theorem noSpawn_bind {α β : Type} (m : M α) (f : α → M β)
    (hm : NoSpawn m) (hf : ∀ a, NoSpawn (f a)) : NoSpawn (m >>= f) := by
  intro w
  obtain ⟨evs, h1, h2⟩ := hm w
  rw [bind_apply]
  unfold M.bind
  rcases hmw : m w with ⟨o, w1⟩
  rw [hmw] at h1
  rcases o with a | e | l
  · obtain ⟨evs2, h3, h4⟩ := hf a w1
    refine ⟨evs ++ evs2, ?_, ?_⟩
    · simp only [h3]
      simp at h1
      rw [h1, List.append_assoc]
    · intro ev hev
      rcases List.mem_append.mp hev with h | h
      · exact h2 ev h
      · exact h4 ev h
  · exact ⟨evs, h1, h2⟩
  · exact ⟨evs, h1, h2⟩

theorem noSpawn_emit (ev : Event) (h : Event.isSpawn ev = false) : NoSpawn (emit ev) :=
  fun w => ⟨[ev], rfl, by simpa using h⟩

theorem noSpawn_goPanic {α : Type} (e : GoError) : NoSpawn (goPanic e : M α) :=
  fun w => ⟨[], by simp [goPanic], by simp⟩

theorem noSpawn_logFatalln {α : Type} (l : String) : NoSpawn (logFatalln l : M α) :=
  fun w => ⟨[Event.log l], rfl, by simp [Event.isSpawn]⟩

theorem noSpawn_errCheck (msg : String) (err : Option GoError) : NoSpawn (errCheck msg err) := by
  cases err with
  | none => exact noSpawn_pure ()
  | some e =>
    exact noSpawn_bind _ _ (noSpawn_emit _ rfl) (fun _ => noSpawn_goPanic e)

theorem noSpawn_osStat (env : Env) (path : String) : NoSpawn (osStat env path) := by
  intro w
  refine ⟨[], ?_, by simp⟩
  unfold osStat
  split
  · simp
  · split <;> simp

theorem noSpawn_httpGet (env : Env) (url : String) : NoSpawn (httpGet env url) := by
  unfold httpGet
  refine noSpawn_bind _ _ (noSpawn_emit _ rfl) (fun _ => ?_)
  split <;> exact noSpawn_pure _

theorem noSpawn_osRemove (env : Env) (path : String) : NoSpawn (osRemove env path) := by
  intro w
  refine ⟨[Event.remove path], ?_, by simp [Event.isSpawn]⟩
  unfold osRemove
  split
  · simp
  · split <;> simp

theorem noSpawn_osMkdirAll (env : Env) (path : String) (mode : Nat) :
    NoSpawn (osMkdirAll env path mode) :=
  noSpawn_bind _ _ (noSpawn_emit _ rfl) (fun _ => noSpawn_pure _)

theorem noSpawn_osCreate (env : Env) (path : String) : NoSpawn (osCreate env path) := by
  intro w
  refine ⟨[Event.create path], ?_, by simp [Event.isSpawn]⟩
  unfold osCreate
  split <;> simp

theorem noSpawn_ioCopy (env : Env) (fout : String) (r : Response) :
    NoSpawn (ioCopy env fout r) := by
  intro w
  refine ⟨[Event.write fout r.body], ?_, by simp [Event.isSpawn]⟩
  unfold ioCopy
  split
  · simp
  · split <;> simp

theorem noSpawn_osChmod (env : Env) (path : String) (mode : Nat) :
    NoSpawn (osChmod env path mode) := by
  intro w
  refine ⟨[Event.chmod path mode], ?_, by simp [Event.isSpawn]⟩
  unfold osChmod
  split
  · simp
  · split <;> simp

theorem noSpawn_checkBinLoop (finfo : FileInfo) (mt : Time)
    (cs : List ListBucketResultContents) : NoSpawn (checkBinLoop finfo mt cs) := by
  induction cs with
  | nil => exact noSpawn_pure _
  | cons c rest ih =>
    unfold checkBinLoop
    refine noSpawn_bind _ _ ?_ (fun early => ?_)
    · split
      · simp only []
        split
        · exact noSpawn_bind _ _ (noSpawn_emit _ rfl) (fun _ => noSpawn_pure _)
        · exact noSpawn_pure _
      · exact noSpawn_pure _
    · cases early with
      | some res => exact noSpawn_pure _
      | none => exact noSpawn_bind _ _ (noSpawn_logFatalln _) (fun _ => ih)

theorem noSpawn_checkBin (env : Env) (cbin : String) : NoSpawn (checkBin env cbin) := by
  unfold checkBin
  refine noSpawn_bind _ _ (noSpawn_osStat env cbin) (fun x => ?_)
  rcases x with ⟨finfo, err⟩
  cases err with
  | some e => exact noSpawn_pure _
  | none =>
    cases finfo with
    | none => exact noSpawn_goPanic _
    | some fi =>
      refine noSpawn_bind _ _ (noSpawn_httpGet env URL) (fun y => ?_)
      rcases y with ⟨r, err1⟩
      refine noSpawn_bind _ _ (noSpawn_errCheck _ _) (fun _ => ?_)
      cases r with
      | none => exact noSpawn_goPanic _
      | some r =>
        refine noSpawn_bind _ _ (noSpawn_checkBinLoop _ _ _) (fun z => ?_)
        cases z <;> exact noSpawn_pure _

theorem noSpawn_checkCode (env : Env) (cbin : String) : NoSpawn (checkCode env cbin) := by
  unfold checkCode
  refine noSpawn_bind _ _ (noSpawn_checkBin env cbin) (fun x => ?_)
  rcases x with ⟨finfo, bin, err⟩
  refine noSpawn_bind _ _ (noSpawn_errCheck _ _) (fun _ => ?_)
  cases bin with
  | true => exact noSpawn_pure _
  | false =>
    simp only [Bool.false_eq_true, if_false]
    refine noSpawn_bind _ _ ?_ (fun name => ?_)
    · cases finfo with
      | none => exact noSpawn_goPanic _
      | some fi => exact noSpawn_pure _
    refine noSpawn_bind _ _ (noSpawn_emit _ rfl) (fun _ => ?_)
    refine noSpawn_bind _ _ (noSpawn_osRemove env cbin) (fun err => ?_)
    refine noSpawn_bind _ _ (noSpawn_errCheck _ _) (fun _ => ?_)
    refine noSpawn_bind _ _ (noSpawn_httpGet env _) (fun y => ?_)
    rcases y with ⟨rd, err2⟩
    refine noSpawn_bind _ _ (noSpawn_errCheck _ _) (fun _ => ?_)
    refine noSpawn_bind _ _ (noSpawn_osMkdirAll env _ _) (fun _ => ?_)
    refine noSpawn_bind _ _ (noSpawn_osCreate env cbin) (fun z => ?_)
    rcases z with ⟨fout, err3⟩
    refine noSpawn_bind _ _ (noSpawn_errCheck _ _) (fun _ => ?_)
    refine noSpawn_bind _ _ ?_ (fun u => ?_)
    · cases fout with
      | none => exact noSpawn_goPanic _
      | some fo =>
        cases rd with
        | none => exact noSpawn_goPanic _
        | some r => exact noSpawn_ioCopy env fo r
    rcases u with ⟨n, err4⟩
    refine noSpawn_bind _ _ (noSpawn_errCheck _ _) (fun _ => ?_)
    refine noSpawn_bind _ _ (noSpawn_osChmod env cbin _) (fun err5 => ?_)
    exact noSpawn_errCheck _ _

theorem launchCode_portTaken (env : Env) (cbin : String) (w : World) (e : GoError)
    (h : env.listenErr Port = some e) :
    launchCode env cbin w
      = (Outcome.fatal portTakenLine,
          w.add [Event.listen Port, Event.log portTakenLine]) := by
  simp [launchCode, bind_apply, M.bind, netListen, emit, h, pure_apply, logFatalln, World.add]

theorem main_of_ret (env : Env) (w w1 : World)
    (h : checkCode env (CBIN env) w = (Outcome.ret (), w1)) :
    main env w = launchCode env (CBIN env) w1 := by
  simp [main, bind_apply, M.bind, h]

theorem main_of_not_ret (env : Env) (w : World)
    (h : (checkCode env (CBIN env) w).1 ≠ Outcome.ret ()) :
    main env w = checkCode env (CBIN env) w := by
  rcases hc : checkCode env (CBIN env) w with ⟨o, w1⟩
  rw [hc] at h
  rcases o with a | e | l
  · exact absurd rfl h
  · simp [main, bind_apply, M.bind, hc]
  · simp [main, bind_apply, M.bind, hc]

/-- C8: for every run in which binding the listener on `Port` fails,
`launchCode` ends in the fatal port-taken termination right after the bind
attempt, with no child process started.  In `main` this happens exactly when
`checkCode` has returned: if `checkCode` did not return, `main` ends as
`checkCode` did and `launchCode` is not entered; and in either case the whole
run of `main` starts no child process. -/
theorem C8_port_taken_starts_nothing (env : Env) (cbin : String) (w : World) (e : GoError)
    (h : env.listenErr Port = some e) :
    launchCode env cbin w
        = (Outcome.fatal portTakenLine, w.add [Event.listen Port, Event.log portTakenLine])
    ∧ (∀ w1, checkCode env (CBIN env) w = (Outcome.ret (), w1) →
        main env w
          = (Outcome.fatal portTakenLine,
              w1.add [Event.listen Port, Event.log portTakenLine]))
    ∧ ((checkCode env (CBIN env) w).1 ≠ Outcome.ret () →
        main env w = checkCode env (CBIN env) w)
    ∧ ∃ evs, (main env w).2.trace = w.trace ++ evs ∧ ∀ ev ∈ evs, Event.isSpawn ev = false := by
  refine ⟨launchCode_portTaken env cbin w e h, ?_, main_of_not_ret env w, ?_⟩
  · intro w1 h1
    rw [main_of_ret env w w1 h1, launchCode_portTaken env _ w1 e h]
  · obtain ⟨evs, h1, h2⟩ := noSpawn_checkCode env (CBIN env) w
    by_cases hr : (checkCode env (CBIN env) w).1 = Outcome.ret ()
    · have hc : checkCode env (CBIN env) w = (Outcome.ret (), (checkCode env (CBIN env) w).2) :=
        Prod.ext hr rfl
      rw [main_of_ret env w _ hc, launchCode_portTaken env _ _ e h]
      refine ⟨evs ++ [Event.listen Port, Event.log portTakenLine], ?_, ?_⟩
      · simp [World.add, h1]
      · intro ev hev
        rcases List.mem_append.mp hev with h3 | h3
        · exact h2 ev h3
        · simp at h3
          rcases h3 with h3 | h3 <;> simp [h3, Event.isSpawn]
    · rw [main_of_not_ret env w hr]
      exact ⟨evs, h1, h2⟩

/-- Witness for C8: the binary is fresh, so `checkCode` returns, and port 1337 is taken. -/
theorem C8_port_taken_starts_nothing_witness :
    busyEnv.listenErr Port = some ErrAddrInUse
    ∧ checkCode busyEnv (CBIN busyEnv) (worldWith t2020Jan01)
        = (Outcome.ret (), (worldWith t2020Jan01).add [Event.httpGet URL,
            Event.log "Binary is healthy and up to date.  Release the hounds."])
    ∧ main busyEnv (worldWith t2020Jan01)
        = (Outcome.fatal portTakenLine,
            ((worldWith t2020Jan01).add [Event.httpGet URL,
              Event.log "Binary is healthy and up to date.  Release the hounds."]).add
              [Event.listen Port, Event.log portTakenLine]) :=
  have hc := checkCode_of_fresh busyEnv (CBIN busyEnv) (worldWith t2020Jan01) _ _
    (checkBin_fresh busyEnv (CBIN busyEnv) (worldWith t2020Jan01)
      ⟨[7, 7], 0o770, t2020Jan01⟩ ⟨[], none⟩ entryLinux [] (by decide) rfl rfl rfl
      (by decide) (by decide))
  ⟨rfl, hc,
    (C8_port_taken_starts_nothing busyEnv (CBIN busyEnv) (worldWith t2020Jan01) ErrAddrInUse
      rfl).2.1 _ hc⟩

end Codetini
